import Mathlib

/-!
Shallow embedding of the `rsparam` shared-parameter-file utilities.

The repository's command layer is `rsparam/cli.py`; its record types and
core query operations (parse, find, find_duplicates, compare) live in the
`rsparam` library package, which the command layer imports.  Definitions
below are translated from the Python source where it exists; operations of
the library package are modelled from the specification and say so in
their doc comments.
-/

namespace Rsparam

/-- A parameter-group record.  The format's key for a group is a small
integer id; both the library entries consumed by the CLI and the CLI's
column lists expose it under the attribute name `guid`
(cli.py line 95: columns `guid:name:lineno`). -/
structure ParamGroup where
  guid : Int
  name : String
  lineno : Nat
deriving DecidableEq, Repr

/-- A parameter-definition record, with the attributes the CLI reads
(cli.py line 72: columns `guid:name:datatype:group:lineno`) plus the
verbatim-preserved trailing fields of a `PARAM` line described by the
specification (data category, visible, description, user modifiable). -/
structure ParamDef where
  guid : String
  name : String
  datatype : String
  group : Int
  datacategory : String
  visible : String
  description : String
  usermodifiable : String
  lineno : Nat
deriving DecidableEq, Repr

/-- A parsed shared-parameter file: groups and parameters, each in
declaration order. -/
structure SPFile where
  groups : List ParamGroup
  params : List ParamDef
deriving DecidableEq, Repr

/-- A merge-conflict warning: the key of a dropped record and the index of
the source file it came from. -/
structure MergeConflict where
  key : String
  sourceIndex : Nat
deriving DecidableEq, Repr

/-- The Python exceptions the command layer can raise. -/
inductive CliError where
  | notImplementedError
  | typeError (msg : String)
deriving DecidableEq, Repr

/-- Function `merge` from cli.py (lines 190-191).  Its entire body is
`raise NotImplementedError()`; the declared result type records what the
merge command would have to produce (a merged file plus a conflict
warning list) if it returned at all. -/
def merge (dest_file : String) (source_files : List String) :
    Except CliError (SPFile × List MergeConflict) :=
  .error .notImplementedError

/-- Function `sort` from cli.py (lines 194-195).  Its entire body is
`raise NotImplementedError()`; it accepts a single positional argument,
which it never inspects, so the argument is typed here over parsed files,
the domain the specification's sort operates on. -/
def sort (source_file : SPFile) : Except CliError SPFile :=
  .error .notImplementedError

/-- Python call binding: bind `npos` positional arguments and the keyword
arguments `kwargs` against a function's parameter-name list.  A `TypeError`
is raised when there are more positional arguments than parameters, a
keyword does not name a parameter, a keyword names a parameter already
bound positionally, or a parameter is left unbound. -/
def bindCall (params : List String) (npos : Nat) (kwargs : List String) :
    Except CliError Unit :=
  if params.length < npos then
    .error (.typeError "too many positional arguments")
  else if kwargs.any (fun k => !params.contains k) then
    .error (.typeError "unexpected keyword argument")
  else if kwargs.any (fun k => (params.take npos).contains k) then
    .error (.typeError "multiple values for argument")
  else if (params.drop npos).any (fun p => !kwargs.contains p) then
    .error (.typeError "missing required argument")
  else
    .ok ()

/-- The `sort` branch of `main` (cli.py lines 253-259): Python first binds
the call `sort(source_file, byname=args["--byname"])` against `sort`'s
parameter list `(source_file)`; only if binding succeeds does the body of
`sort` run. -/
def main_sort_branch (source_file : SPFile) (byname : Bool) :
    Except CliError SPFile :=
  match bindCall ["source_file"] 1 ["byname"] with
  | .error e => .error e
  | .ok _ => sort source_file

/-- The row tuple built by `list_params` for one parameter under the
default columns `guid:name:datatype:group:lineno` (cli.py lines 68-77).
The rows are plain Python tuples. -/
abbrev ParamRow := String × String × String × Int × Nat

/-- The expression `getattr(x, "name", 0)` for a row tuple `x` (cli.py line 80): a tuple
has no attribute named `name`, so `getattr` always returns the default
value `0`, whatever the row is. -/
def rowNameAttrOrZero (x : ParamRow) : Nat := 0

/-- Stable insert: `a` goes before the first element whose key is not
below `a`'s key, so elements with equal keys keep their original relative
order. -/
def pyInsert {α β : Type} [LinearOrder β] (key : α → β) (a : α) :
    List α → List α
  | [] => [a]
  | b :: l => if key a ≤ key b then a :: b :: l else b :: pyInsert key a l

/-- Python's built-in `sorted(l, key=key)`: a stable sort by the key
values, modelled as stable insertion sort (all stable sorts by the same
key agree). -/
def pySorted {α β : Type} [LinearOrder β] (key : α → β) : List α → List α
  | [] => []
  | a :: l => pyInsert key a (pySorted key l)

/-- The row pipeline of `list_params` (cli.py lines 64-84) under the
default columns: build one tuple per parameter in file order, then, when
`--sortby group` was requested, re-sort the tuples with
`sorted(sparamdata, key=lambda x: getattr(x, "name", 0))`
(cli.py lines 79-80). -/
def list_params_rows (sortby : String) (sparams : List ParamDef) :
    List ParamRow :=
  let sparamdata := sparams.map fun sp =>
    (sp.guid, sp.name, sp.datatype, sp.group, sp.lineno)
  if sortby = "group" then pySorted rowNameAttrOrZero sparamdata
  else sparamdata

/-- Modelled from the spec: the Query Engine lives in the `rsparam`
library package, which is absent from these sources (only its CLI callers
are present).  Comparison key of a parameter (spec 4.2 and glossary): its
GUID, or its name when name-based comparison is selected. -/
def paramKey (byname : Bool) (p : ParamDef) : String :=
  if byname then p.name else p.guid

/-- Modelled from the spec: comparison key of a group (spec 4.2): its
integer id (exposed to the CLI as `guid`), or its name when name-based
comparison is selected. -/
def groupKey (byname : Bool) (g : ParamGroup) : Sum Int String :=
  if byname then Sum.inr g.name else Sum.inl g.guid

/-- Deduplicate a key list, keeping the first occurrence of each key. -/
def dedupKeepFirst {κ : Type} [DecidableEq κ] : List κ → List κ
  | [] => []
  | k :: ks => k :: (dedupKeepFirst ks).filter fun x => decide (x ≠ k)

/-- Modelled from the spec (4.2 `find_duplicates`, data model
`DuplicateSet`): group a list's members by key; each key's member list is
the file-order sublist carrying that key, keys taken in order of first
occurrence, and only keys shared by two or more members are kept. -/
def duplicateLists {α κ : Type} [DecidableEq κ] (key : α → κ) (l : List α) :
    List (List α) :=
  ((dedupKeepFirst (l.map key)).map fun k =>
      l.filter fun a => decide (key a = k)).filter
    fun g => decide (2 ≤ g.length)

/-- The duplicate sets for one file, as the CLI consumes them
(`spentries.groups` and `spentries.params`, cli.py lines 117 and 140). -/
structure DuplicateSet where
  groups : List (List ParamGroup)
  params : List (List ParamDef)
deriving DecidableEq, Repr

/-- Modelled from the spec: `find_duplicates(file, by_name)` (spec 4.2):
records grouped by GUID (`by_name = false`) or by name (`by_name = true`),
keys with two or more members only, members in file order. -/
def find_duplicates (f : SPFile) (byname : Bool) : DuplicateSet :=
  ⟨duplicateLists (groupKey byname) f.groups,
   duplicateLists (paramKey byname) f.params⟩

/-- Modelled from the spec: `compare(file_a, file_b, by_name)` (spec 4.2):
partitions each file's records into those whose comparison key has no
counterpart in the other file and returns the pair (unique to first,
unique to second), each side again a groups/params pair as the CLI
consumes it (`uniq1.groups`, `uniq1.params`, ...). -/
def compare (a b : SPFile) (byname : Bool) : SPFile × SPFile :=
  (⟨a.groups.filter fun g =>
      !(b.groups.any fun h => decide (groupKey byname h = groupKey byname g)),
    a.params.filter fun p =>
      !(b.params.any fun q => decide (paramKey byname q = paramKey byname p))⟩,
   ⟨b.groups.filter fun g =>
      !(a.groups.any fun h => decide (groupKey byname h = groupKey byname g)),
    b.params.filter fun p =>
      !(a.params.any fun q => decide (paramKey byname q = paramKey byname p))⟩)

/-- Modelled from the spec: `find(file, pattern)` (spec 4.2).  The regular
expression engine belongs to the absent library package, so a compiled
pattern is modelled by the case-sensitive name predicate it denotes.  A
group matches if the pattern matches its name; a parameter matches if the
pattern matches its name; each slot keeps file order. -/
def find (f : SPFile) (pattern_matches : String → Bool) : SPFile :=
  ⟨f.groups.filter fun g => pattern_matches g.name,
   f.params.filter fun p => pattern_matches p.name⟩

/-- The name predicate denoted by the regular expression `^Door.*`: names
whose first four characters are `Door`. -/
def doorPattern (s : String) : Bool :=
  decide (s.data.take 4 = ['D', 'o', 'o', 'r'])

/-- A value in a mixed-type Python tuple slot: the duplicate-groups table
holds the integer group id or the name string depending on mode. -/
inductive PyVal where
  | int (i : Int)
  | str (s : String)
deriving DecidableEq, Repr

/-- One row of the duplicate-parameters table (cli.py lines 119-121):
`(d.name if byname else d.guid, d.guid if byname else d.name, d.datatype,
d.group, d.lineno)`. -/
def paramDuplRow (byname : Bool) (d : ParamDef) :
    String × String × String × Int × Nat :=
  (if byname then d.name else d.guid,
   if byname then d.guid else d.name,
   d.datatype, d.group, d.lineno)

/-- One row of the duplicate-groups table (cli.py lines 142-144):
`(d.name if byname else d.guid, d.guid if byname else d.name, d.lineno)`. -/
def groupDuplRow (byname : Bool) (d : ParamGroup) : PyVal × PyVal × Nat :=
  (if byname then .str d.name else .int d.guid,
   if byname then .int d.guid else .str d.name,
   d.lineno)

/-- The loop of `find_param_dupls` (cli.py lines 115-131): `dupldata` is
created once before the loop and only ever extended inside it.  Each
iteration appends the current duplicate list's rows, prints a banner with
`dupldata[0][0]` (modelled via `head?`; on an empty table Python would
raise `IndexError`), re-binds `dupldata` to its sorted copy when
`--sortby group` was given, and prints the whole of `dupldata`.  Returned
are the printed (banner, table) pairs in order. -/
def find_param_dupls_loop (byname : Bool) (sortby : String)
    (dupldata : List (String × String × String × Int × Nat)) :
    List (List ParamDef) →
      List (Option String × List (String × String × String × Int × Nat))
  | [] => []
  | dlist :: rest =>
    let d1 := dupldata ++ dlist.map (paramDuplRow byname)
    let banner := d1.head?.map fun r => r.1
    let d2 := if sortby = "group"
      then pySorted (fun r => toString r.2.2.2.1) d1 else d1
    (banner, d2) :: find_param_dupls_loop byname sortby d2 rest

/-- The (banner, table) pairs printed by `find_param_dupls` for one file's
parameter duplicate lists. -/
def find_param_dupls_outputs (byname : Bool) (sortby : String)
    (duplLists : List (List ParamDef)) :
    List (Option String × List (String × String × String × Int × Nat)) :=
  find_param_dupls_loop byname sortby [] duplLists

/-- The loop of `find_group_dupls` (cli.py lines 138-150): same shape as
the parameter loop, with three-column rows and no sort branch. -/
def find_group_dupls_loop (byname : Bool)
    (dupldata : List (PyVal × PyVal × Nat)) :
    List (List ParamGroup) →
      List (Option PyVal × List (PyVal × PyVal × Nat))
  | [] => []
  | dlist :: rest =>
    let d1 := dupldata ++ dlist.map (groupDuplRow byname)
    (d1.head?.map fun r => r.1, d1) :: find_group_dupls_loop byname d1 rest

/-- The (banner, table) pairs printed by `find_group_dupls` for one file's
group duplicate lists. -/
def find_group_dupls_outputs (byname : Bool)
    (duplLists : List (List ParamGroup)) :
    List (Option PyVal × List (PyVal × PyVal × Nat)) :=
  find_group_dupls_loop byname [] duplLists

/-- The parse-time errors of the core (spec section 6): a byte sequence
that cannot be decoded under the requested encoding, or a data line that
fails validation for its record kind. -/
inductive ParseError where
  | decodeError (encoding : String)
  | malformedLineError (lineno : Nat) (raw : String)
deriving DecidableEq, Repr

/-- Modelled from the spec (section 6): decoding under the `ascii` codec:
every byte must be below 128. -/
def asciiDecode : List Nat → Option (List Char)
  | [] => some []
  | b :: bs =>
    if b < 128 then (asciiDecode bs).map (Char.ofNat b :: ·)
    else none

/-- Is `b` a UTF-8 continuation byte (`0x80`-`0xBF`)? -/
def isUtf8Cont (b : Nat) : Bool := decide (128 ≤ b ∧ b < 192)

/-- Modelled from the spec (section 6): strict UTF-8 decoding of a byte
list into code points, rejecting invalid leading bytes, truncated or
non-continuation sequences, overlong encodings, surrogates and values
beyond `0x10FFFF`. -/
def utf8Decode : List Nat → Option (List Char)
  | [] => some []
  | b1 :: rest =>
    if b1 < 0x80 then (utf8Decode rest).map (Char.ofNat b1 :: ·)
    else if b1 < 0xc2 then none
    else if b1 < 0xe0 then
      match rest with
      | b2 :: rest2 =>
        if isUtf8Cont b2 then
          (utf8Decode rest2).map (Char.ofNat ((b1 - 0xc0) * 64 + (b2 - 128)) :: ·)
        else none
      | [] => none
    else if b1 < 0xf0 then
      match rest with
      | b2 :: b3 :: rest3 =>
        if isUtf8Cont b2 && isUtf8Cont b3 then
          let n := (b1 - 0xe0) * 4096 + (b2 - 128) * 64 + (b3 - 128)
          if 0x800 ≤ n ∧ (n < 0xd800 ∨ 0xe000 ≤ n) then
            (utf8Decode rest3).map (Char.ofNat n :: ·)
          else none
        else none
      | _ => none
    else if b1 < 0xf5 then
      match rest with
      | b2 :: b3 :: b4 :: rest4 =>
        if isUtf8Cont b2 && isUtf8Cont b3 && isUtf8Cont b4 then
          let n := (b1 - 0xf0) * 262144 + (b2 - 128) * 4096 +
            (b3 - 128) * 64 + (b4 - 128)
          if 0x10000 ≤ n ∧ n ≤ 0x10ffff then
            (utf8Decode rest4).map (Char.ofNat n :: ·)
          else none
        else none
      | _ => none
    else none

/-- Modelled from the spec (sections 4.1 and 6): decode raw bytes under a
named encoding.  The specification fixes no codec inventory beyond the
default `utf-8`; here `ascii` and `utf-8` are modelled and any other name
decodes nothing. -/
def decode (encoding : String) (bytes : List Nat) : Option (List Char) :=
  if encoding = "ascii" then asciiDecode bytes
  else if encoding = "utf-8" then utf8Decode bytes
  else none

/-- Split a character list at every occurrence of `sep` (the separator is
dropped); an empty input yields one empty chunk, as Python's `split`. -/
def splitOnChar (sep : Char) : List Char → List (List Char)
  | [] => [[]]
  | c :: cs =>
    if c = sep then [] :: splitOnChar sep cs
    else
      match splitOnChar sep cs with
      | [] => [[c]]
      | l :: ls => (c :: l) :: ls

/-- The tab-delimited fields of one line. -/
def lineFields (line : String) : List String :=
  (splitOnChar '\t' line.data).map String.mk

/-- One decimal digit's value, or `none`. -/
def decDigit? (c : Char) : Option Nat :=
  if '0' ≤ c ∧ c ≤ '9' then some (c.toNat - '0'.toNat) else none

/-- Accumulate decimal digits; `none` on any non-digit. -/
def decDigitsAux : List Char → Nat → Option Nat
  | [], acc => some acc
  | c :: cs, acc =>
    match decDigit? c with
    | some d => decDigitsAux cs (acc * 10 + d)
    | none => none

/-- Modelled from the spec (4.1): parse an integer field as `int()`
accepts it in these files: an optional sign followed by one or more
decimal digits. -/
def parseIntField (s : String) : Option Int :=
  match s.data with
  | [] => none
  | '-' :: cs =>
    match cs with
    | [] => none
    | _ => (decDigitsAux cs 0).map fun n => -(n : Int)
  | '+' :: cs =>
    match cs with
    | [] => none
    | _ => (decDigitsAux cs 0).map fun n => (n : Int)
  | cs => (decDigitsAux cs 0).map fun n => (n : Int)

/-- Is `c` a hexadecimal digit? -/
def isHexDigitChar (c : Char) : Bool :=
  decide (('0' ≤ c ∧ c ≤ '9') ∨ ('a' ≤ c ∧ c ≤ 'f') ∨ ('A' ≤ c ∧ c ≤ 'F'))

/-- Modelled from the spec (4.1): a GUID field must be 32 hex digits
grouped 8-4-4-4-12 by hyphens, case-insensitively. -/
def guidShapeOk (s : String) : Bool :=
  decide (s.data.length = 36) &&
    s.data.enum.all fun p =>
      if p.1 = 8 ∨ p.1 = 13 ∨ p.1 = 18 ∨ p.1 = 23 then decide (p.2 = '-')
      else isHexDigitChar p.2

/-- ASCII lowercasing of one character. -/
def charLower (c : Char) : Char :=
  if 'A' ≤ c ∧ c ≤ 'Z' then Char.ofNat (c.toNat + 32) else c

/-- ASCII lowercasing of a string. -/
def lowerStr (s : String) : String := String.mk (s.data.map charLower)

/-- Modelled from the spec (4.1): validate a GUID field and normalize it
to the lowercase hyphenated canonical form; `none` for a malformed GUID. -/
def guidNormalize (s : String) : Option String :=
  if guidShapeOk s then some (lowerStr s) else none

/-- The classification of one source line. -/
inductive LineKind where
  | skipLine
  | groupLine (g : ParamGroup)
  | paramLine (p : ParamDef)
  | badLine
deriving DecidableEq, Repr

/-- Modelled from the spec (4.1): classify one line of decoded text by its
first tab-delimited token.  Asterisk-prefixed marker lines, blank lines
and unrecognized leading tokens are skipped (the retained format-version
metadata of marker lines is not modelled; no claim concerns it); a
`GROUP` line needs at least 3 fields and an integer id; a `PARAM` line
needs at least 5 fields, a well-formed GUID and an integer group id, the
trailing fields being optional with empty-string defaults; any violation
makes the data line malformed. -/
def classifyLine (lineno : Nat) (line : String) : LineKind :=
  if ((lineFields line).headD "").data.headD ' ' = '*' then .skipLine
  else if (lineFields line).headD "" = "GROUP" then
    if 3 ≤ (lineFields line).length then
      match parseIntField ((lineFields line).getD 1 "") with
      | some gid => .groupLine ⟨gid, (lineFields line).getD 2 "", lineno⟩
      | none => .badLine
    else .badLine
  else if (lineFields line).headD "" = "PARAM" then
    if 5 ≤ (lineFields line).length then
      match guidNormalize ((lineFields line).getD 1 ""),
            parseIntField ((lineFields line).getD 4 "") with
      | some gu, some gid =>
        .paramLine ⟨gu, (lineFields line).getD 2 "",
          (lineFields line).getD 3 "", gid,
          (lineFields line).getD 5 "", (lineFields line).getD 6 "",
          (lineFields line).getD 7 "", (lineFields line).getD 8 "", lineno⟩
      | _, _ => .badLine
    else .badLine
  else .skipLine

/-- The malformed-data-line condition as the amended claim states it: a
`GROUP` or `PARAM` line with fewer than the minimum fields for its kind,
with a non-integer id or group-id field, or (for `PARAM`) with a
malformed GUID.  Stated independently of `classifyLine` so that the
characterization theorem relates the two. -/
def lineMalformed (line : String) : Bool :=
  (decide ((lineFields line).headD "" = "GROUP") &&
    (decide ((lineFields line).length < 3) ||
      (parseIntField ((lineFields line).getD 1 "")).isNone)) ||
  (decide ((lineFields line).headD "" = "PARAM") &&
    (decide ((lineFields line).length < 5) ||
      (guidNormalize ((lineFields line).getD 1 "")).isNone ||
      (parseIntField ((lineFields line).getD 4 "")).isNone))

/-- Modelled from the spec (4.1, section 7): fold the numbered lines into
a file, aborting with `MalformedLineError` at the first malformed data
line; groups and parameters are each appended in file order. -/
def parseLines : Nat → List String → Except ParseError SPFile
  | _, [] => .ok ⟨[], []⟩
  | n, line :: rest =>
    match classifyLine n line with
    | .badLine => .error (.malformedLineError n line)
    | .skipLine => parseLines (n+1) rest
    | .groupLine g =>
      (parseLines (n+1) rest).map fun f => ⟨g :: f.groups, f.params⟩
    | .paramLine p =>
      (parseLines (n+1) rest).map fun f => ⟨f.groups, p :: f.params⟩

/-- Modelled from the spec (4.1): `parse(bytes, encoding) -> File`: decode
the bytes (failing with `DecodeError`), split the text into lines, and
fold them with 1-based line numbers. -/
def parse (encoding : String) (bytes : List Nat) : Except ParseError SPFile :=
  match decode encoding bytes with
  | none => .error (.decodeError encoding)
  | some cs => parseLines 1 ((splitOnChar '\n' cs).map String.mk)

/-- C1 (amended): the CLI `merge` is unimplemented: for every destination
and every list of source files it raises `NotImplementedError`; no merged
file and no `MergeConflict` warning list are ever produced. -/
theorem C1_merge_always_raises (d : String) (srcs : List String) :
    merge d srcs = .error .notImplementedError := rfl

/-- C1 counterexample: at the concrete input (destination `"dest.txt"`,
sources `["a.txt", "b.txt"]`) `merge` raises a fatal `NotImplementedError`
and returns no merged file, contradicting the claim that merge always
succeeds with a warning list. -/
theorem C1_counterexample :
    merge "dest.txt" ["a.txt", "b.txt"] = .error .notImplementedError ∧
    (merge "dest.txt" ["a.txt", "b.txt"]).isOk = false :=
  ⟨rfl, rfl⟩

/-- C2 (amended): the CLI `sort` is unimplemented: it accepts only the
source file (there is no `by` mode argument) and raises
`NotImplementedError` for every input; no reordered file is produced. -/
theorem C2_sort_always_raises (f : SPFile) :
    sort f = .error .notImplementedError := rfl

/-- C2 counterexample: on the claim's own scenario (parameters in groups
`[2, 1, 2]` with names `[B, A, A]`) `sort` raises `NotImplementedError`
instead of returning a file ordered group1/A, group2/A, group2/B. -/
theorem C2_counterexample :
    sort ⟨[⟨1, "G1", 1⟩, ⟨2, "G2", 2⟩],
          [⟨"ga", "B", "TEXT", 2, "", "", "", "", 3⟩,
           ⟨"gb", "A", "TEXT", 1, "", "", "", "", 4⟩,
           ⟨"gc", "A", "TEXT", 2, "", "", "", "", 5⟩]⟩ =
      .error .notImplementedError ∧
    (sort ⟨[⟨1, "G1", 1⟩, ⟨2, "G2", 2⟩],
           [⟨"ga", "B", "TEXT", 2, "", "", "", "", 3⟩,
            ⟨"gb", "A", "TEXT", 1, "", "", "", "", 4⟩,
            ⟨"gc", "A", "TEXT", 2, "", "", "", "", 5⟩]⟩).isOk = false :=
  ⟨rfl, rfl⟩

/-- C8 (amended): `sort` always fails with `NotImplementedError`, so
sequencing a second sort after the first (in the error monad) is the same
as sorting once; no file-level idempotence is exhibited because `sort`
never returns a file. -/
theorem C8_sort_bind_sort_eq_sort (f : SPFile) :
    (sort f >>= sort) = sort f := rfl

/-- C8 counterexample: at the concrete empty file, `sort` yields an error
rather than a file, so the term `sort(sort(f, by=name), by=name)` of the
claimed idempotence law has no value to compare. -/
theorem C8_counterexample :
    sort ⟨[], []⟩ = .error .notImplementedError ∧
    (sort ⟨[], []⟩).isOk = false :=
  ⟨rfl, rfl⟩

/-- C4: every invocation of the CLI `sort` subcommand raises `TypeError`
before any sorting occurs: `main` calls
`sort(source_file, byname=args["--byname"])` while `sort` is declared with
the single parameter `source_file`, so argument binding fails with an
unexpected-keyword `TypeError` and `sort`'s `NotImplementedError` body is
unreachable from `main`. -/
theorem C4_sort_branch_type_error (f : SPFile) (b : Bool) :
    main_sort_branch f b = .error (.typeError "unexpected keyword argument") ∧
    main_sort_branch f b ≠ .error .notImplementedError :=
  ⟨rfl, by simp [main_sort_branch, bindCall]⟩

theorem pyInsert_of_forall_le {α β : Type} [LinearOrder β] {key : α → β}
    (h : ∀ a b, key a ≤ key b) (a : α) (l : List α) :
    pyInsert key a l = a :: l := by
  cases l with
  | nil => rfl
  | cons b l => simp [pyInsert, h a b]

theorem pySorted_of_forall_le {α β : Type} [LinearOrder β] {key : α → β}
    (h : ∀ a b, key a ≤ key b) (l : List α) : pySorted key l = l := by
  induction l with
  | nil => rfl
  | cons a l ih => simp [pySorted, ih, pyInsert_of_forall_le h]

/-- C3 (amended): the CLI `list --sortby group` path leaves the parameter
rows in original file order rather than ordering them by name: the sort
key `getattr(x, "name", 0)` is constantly `0` on the row tuples and
Python's sort is stable, so the rows are reordered neither by group nor
by name. -/
theorem C3_sortby_group_is_noop (sparams : List ParamDef) :
    list_params_rows "group" sparams =
      sparams.map fun sp => (sp.guid, sp.name, sp.datatype, sp.group, sp.lineno) := by
  unfold list_params_rows
  rw [if_pos rfl]
  exact pySorted_of_forall_le (fun a b => le_refl 0) _

/-- C3 counterexample: on parameters named `B` then `A` (declared in groups
2 and 1), `list --sortby group` emits the rows in file order `B, A`,
which is not ordered by name (`"B" ≤ "A"` fails), contradicting the claim
that this path orders the rows by name. -/
theorem C3_counterexample :
    list_params_rows "group"
        [⟨"gb", "B", "TEXT", 2, "", "", "", "", 1⟩,
         ⟨"ga", "A", "TEXT", 1, "", "", "", "", 2⟩] =
      [("gb", "B", "TEXT", 2, 1), ("ga", "A", "TEXT", 1, 2)] ∧
    ¬ ("B" ≤ ("A" : String)) := by
  refine ⟨?_, ?_⟩
  · rfl
  · rw [String.le_iff_toList_le]
    decide

theorem mem_dedupKeepFirst {κ : Type} [DecidableEq κ] {k : κ} :
    ∀ {ks : List κ}, k ∈ dedupKeepFirst ks ↔ k ∈ ks := by
  intro ks
  induction ks with
  | nil => simp [dedupKeepFirst]
  | cons a ks ih =>
    simp only [dedupKeepFirst, List.mem_cons, List.mem_filter, ih,
      decide_eq_true_eq]
    by_cases h : k = a
    · simp [h]
    · simp [h]

theorem mem_duplicateLists {α κ : Type} [DecidableEq κ] {key : α → κ}
    {l : List α} {g : List α} :
    g ∈ duplicateLists key l ↔
      2 ≤ g.length ∧ ∃ k ∈ l.map key,
        g = l.filter fun a => decide (key a = k) := by
  unfold duplicateLists
  simp only [List.mem_filter, List.mem_map, mem_dedupKeepFirst,
    decide_eq_true_eq]
  constructor
  · rintro ⟨⟨k, hk, rfl⟩, hlen⟩
    exact ⟨hlen, k, hk, rfl⟩
  · rintro ⟨hlen, k, hk, rfl⟩
    exact ⟨⟨k, hk, rfl⟩, hlen⟩

theorem filter_key_mem_duplicateLists {α κ : Type} [DecidableEq κ]
    {key : α → κ} {l : List α} {k : κ}
    (h : 2 ≤ (l.filter fun a => decide (key a = k)).length) :
    (l.filter fun a => decide (key a = k)) ∈ duplicateLists key l := by
  rw [mem_duplicateLists]
  refine ⟨h, k, ?_, rfl⟩
  have hne : (l.filter fun a => decide (key a = k)) ≠ [] := by
    intro he
    rw [he] at h
    simp at h
  obtain ⟨a, ha⟩ := List.exists_mem_of_ne_nil _ hne
  rw [List.mem_filter, decide_eq_true_eq] at ha
  exact List.mem_map.mpr ⟨a, ha.1, ha.2⟩

/-- C5: `find_duplicates(file, by_name)` groups records by GUID when
`by_name = false` and by name when `by_name = true`, returns only keys
shared by two or more records, and lists each key's members in original
file order (each duplicate list is the file-order sublist of records
carrying its key, and every key with two or more records is represented);
in particular a file with exactly two PARAM lines sharing a GUID yields
exactly one duplicate key with both records in file order. -/
theorem C5_find_duplicates_spec :
    (∀ (f : SPFile) (byname : Bool),
      (∀ g ∈ (find_duplicates f byname).params, 2 ≤ g.length ∧
        ∃ k, g = f.params.filter fun p => decide (paramKey byname p = k)) ∧
      (∀ k, 2 ≤ (f.params.filter fun p => decide (paramKey byname p = k)).length →
        (f.params.filter fun p => decide (paramKey byname p = k)) ∈
          (find_duplicates f byname).params) ∧
      (∀ g ∈ (find_duplicates f byname).groups, 2 ≤ g.length ∧
        ∃ k, g = f.groups.filter fun h => decide (groupKey byname h = k)) ∧
      (∀ k, 2 ≤ (f.groups.filter fun h => decide (groupKey byname h = k)).length →
        (f.groups.filter fun h => decide (groupKey byname h = k)) ∈
          (find_duplicates f byname).groups)) ∧
    find_duplicates
        ⟨[], [⟨"gg", "P1", "TEXT", 1, "", "", "", "", 1⟩,
              ⟨"gg", "P2", "TEXT", 1, "", "", "", "", 2⟩]⟩ false =
      ⟨[], [[⟨"gg", "P1", "TEXT", 1, "", "", "", "", 1⟩,
             ⟨"gg", "P2", "TEXT", 1, "", "", "", "", 2⟩]]⟩ := by
  constructor
  · intro f byname
    refine ⟨?_, ?_, ?_, ?_⟩
    · intro g hg
      obtain ⟨hlen, k, _, rfl⟩ := mem_duplicateLists.mp hg
      exact ⟨hlen, k, rfl⟩
    · intro k h
      exact filter_key_mem_duplicateLists h
    · intro g hg
      obtain ⟨hlen, k, _, rfl⟩ := mem_duplicateLists.mp hg
      exact ⟨hlen, k, rfl⟩
    · intro k h
      exact filter_key_mem_duplicateLists h
  · decide

/-- C6: `compare(file_a, file_b, by_name)` returns exactly the records of
each file whose comparison key (GUID for parameters, id for groups, or
name when selected) has no counterpart in the other file; the group and
parameter comparisons are independent, a record whose key appears in both
files appears in neither unique set, and on the spec's scenario (both
files declare group 1 `Doors`; parameters carry distinct GUIDs X and Y)
the unique sets hold exactly those parameters and no groups. -/
theorem C6_compare_spec :
    (∀ (a b : SPFile) (byname : Bool),
      (∀ p, p ∈ (compare a b byname).1.params ↔
        p ∈ a.params ∧ ∀ q ∈ b.params, paramKey byname q ≠ paramKey byname p) ∧
      (∀ p, p ∈ (compare a b byname).2.params ↔
        p ∈ b.params ∧ ∀ q ∈ a.params, paramKey byname q ≠ paramKey byname p) ∧
      (∀ g, g ∈ (compare a b byname).1.groups ↔
        g ∈ a.groups ∧ ∀ h ∈ b.groups, groupKey byname h ≠ groupKey byname g) ∧
      (∀ g, g ∈ (compare a b byname).2.groups ↔
        g ∈ b.groups ∧ ∀ h ∈ a.groups, groupKey byname h ≠ groupKey byname g) ∧
      (∀ p, (∃ q ∈ a.params, paramKey byname q = paramKey byname p) →
        (∃ q ∈ b.params, paramKey byname q = paramKey byname p) →
        p ∉ (compare a b byname).1.params ∧ p ∉ (compare a b byname).2.params)) ∧
    compare ⟨[⟨1, "Doors", 1⟩], [⟨"gx", "PX", "TEXT", 1, "", "", "", "", 2⟩]⟩
            ⟨[⟨1, "Doors", 1⟩], [⟨"gy", "PY", "TEXT", 1, "", "", "", "", 2⟩]⟩
            false =
      (⟨[], [⟨"gx", "PX", "TEXT", 1, "", "", "", "", 2⟩]⟩,
       ⟨[], [⟨"gy", "PY", "TEXT", 1, "", "", "", "", 2⟩]⟩) := by
  constructor
  · intro a b byname
    have hp1 : ∀ p, p ∈ (compare a b byname).1.params ↔
        p ∈ a.params ∧ ∀ q ∈ b.params, paramKey byname q ≠ paramKey byname p := by
      intro p
      simp [compare, List.mem_filter]
    have hp2 : ∀ p, p ∈ (compare a b byname).2.params ↔
        p ∈ b.params ∧ ∀ q ∈ a.params, paramKey byname q ≠ paramKey byname p := by
      intro p
      simp [compare, List.mem_filter]
    refine ⟨hp1, hp2, ?_, ?_, ?_⟩
    · intro g
      simp [compare, List.mem_filter]
    · intro g
      simp [compare, List.mem_filter]
    · intro p ⟨qa, hqa, hka⟩ ⟨qb, hqb, hkb⟩
      constructor
      · intro hmem
        exact ((hp1 p).mp hmem).2 qb hqb hkb
      · intro hmem
        exact ((hp2 p).mp hmem).2 qa hqa hka
  · decide

/-- C7: `find(file, pattern)` returns exactly the groups whose name the
pattern matches (case-sensitively) in the groups slot and exactly the
parameters whose name it matches in the params slot; in particular the
pattern `^Door.*` on a group named `Doors` and a parameter named
`Door Width` returns both in their respective slots. -/
theorem C7_find_matches_by_name :
    (∀ (f : SPFile) (m : String → Bool),
      (∀ g, g ∈ (find f m).groups ↔ g ∈ f.groups ∧ m g.name = true) ∧
      (∀ p, p ∈ (find f m).params ↔ p ∈ f.params ∧ m p.name = true)) ∧
    find ⟨[⟨1, "Doors", 1⟩],
          [⟨"gd", "Door Width", "LENGTH", 1, "", "", "", "", 2⟩]⟩
        doorPattern =
      ⟨[⟨1, "Doors", 1⟩],
       [⟨"gd", "Door Width", "LENGTH", 1, "", "", "", "", 2⟩]⟩ := by
  constructor
  · intro f m
    constructor
    · intro g
      simp [find, List.mem_filter]
    · intro p
      simp [find, List.mem_filter]
  · decide

theorem find_param_dupls_loop_getElem (byname : Bool)
    (lists : List (List ParamDef)) :
    ∀ (acc : List (String × String × String × Int × Nat)) (k : Nat),
      k < lists.length →
      (find_param_dupls_loop byname "name" acc lists)[k]? =
        some (((acc ++ ((lists.take (k+1)).map
                  (List.map (paramDuplRow byname))).flatten).head?.map
                fun r => r.1),
              acc ++ ((lists.take (k+1)).map
                (List.map (paramDuplRow byname))).flatten) := by
  induction lists with
  | nil =>
    intro acc k hk
    simp at hk
  | cons dlist rest ih =>
    intro acc k hk
    cases k with
    | zero =>
      simp [find_param_dupls_loop]
    | succ k =>
      have hk' : k < rest.length := by simpa using hk
      simp only [find_param_dupls_loop, List.getElem?_cons_succ,
        if_neg (by decide : ¬ ("name" = "group"))]
      rw [ih (acc ++ dlist.map (paramDuplRow byname)) k hk']
      simp [List.append_assoc]

theorem find_group_dupls_loop_getElem (byname : Bool)
    (lists : List (List ParamGroup)) :
    ∀ (acc : List (PyVal × PyVal × Nat)) (j : Nat),
      j < lists.length →
      (find_group_dupls_loop byname acc lists)[j]? =
        some (((acc ++ ((lists.take (j+1)).map
                  (List.map (groupDuplRow byname))).flatten).head?.map
                fun r => r.1),
              acc ++ ((lists.take (j+1)).map
                (List.map (groupDuplRow byname))).flatten) := by
  induction lists with
  | nil =>
    intro acc j hj
    simp at hj
  | cons dlist rest ih =>
    intro acc j hj
    cases j with
    | zero =>
      simp [find_group_dupls_loop]
    | succ j =>
      have hj' : j < rest.length := by simpa using hj
      simp only [find_group_dupls_loop, List.getElem?_cons_succ]
      rw [ih (acc ++ dlist.map (groupDuplRow byname)) j hj']
      simp [List.append_assoc]

/-- C10: in the CLI's duplicate reporting the row buffer `dupldata` is
created once before the loop over duplicate lists and never cleared inside
it: under the default sort mode, for every file whose duplicate set holds
nonempty parameter duplicate lists, the table printed for the k-th key is
the accumulation of the rows of keys 1 through k, and every per-key banner
prints the first key's value (`dupldata[0][0]`), not the current key's;
the same holds for group duplicates. -/
theorem C10_dupldata_accumulates (byname : Bool)
    (plists : List (List ParamDef)) (glists : List (List ParamGroup))
    (k j : Nat) (hk : k < plists.length) (hj : j < glists.length)
    (hp : (plists.headD []) ≠ []) (hg : (glists.headD []) ≠ []) :
    (find_param_dupls_outputs byname "name" plists)[k]? =
      some (((plists.headD []).head?.map fun d => (paramDuplRow byname d).1),
            ((plists.take (k+1)).map (List.map (paramDuplRow byname))).flatten) ∧
    (find_group_dupls_outputs byname glists)[j]? =
      some (((glists.headD []).head?.map fun d => (groupDuplRow byname d).1),
            ((glists.take (j+1)).map (List.map (groupDuplRow byname))).flatten) := by
  constructor
  · rw [find_param_dupls_outputs,
      find_param_dupls_loop_getElem byname plists [] k hk]
    obtain ⟨l0, rest, rfl⟩ : ∃ l0 rest, plists = l0 :: rest := by
      cases plists with
      | nil => simp at hk
      | cons a l => exact ⟨a, l, rfl⟩
    obtain ⟨d0, dtl, rfl⟩ : ∃ d0 dtl, l0 = d0 :: dtl := by
      cases l0 with
      | nil => simp at hp
      | cons a l => exact ⟨a, l, rfl⟩
    simp
  · rw [find_group_dupls_outputs,
      find_group_dupls_loop_getElem byname glists [] j hj]
    obtain ⟨l0, rest, rfl⟩ : ∃ l0 rest, glists = l0 :: rest := by
      cases glists with
      | nil => simp at hj
      | cons a l => exact ⟨a, l, rfl⟩
    obtain ⟨d0, dtl, rfl⟩ : ∃ d0 dtl, l0 = d0 :: dtl := by
      cases l0 with
      | nil => simp at hg
      | cons a l => exact ⟨a, l, rfl⟩
    simp

/-- C10 witness: on a duplicate set with two parameter duplicate lists and
two group duplicate lists, the second printed parameter table already
contains the first key's rows and its banner still names the first key's
value, and likewise for groups. -/
theorem C10_witness :
    (1 < ([[⟨"a", "A", "T", 1, "", "", "", "", 1⟩,
            ⟨"a", "B", "T", 1, "", "", "", "", 2⟩],
           [⟨"c", "C", "T", 1, "", "", "", "", 3⟩]] :
            List (List ParamDef)).length) ∧
    (1 < ([[⟨1, "GA", 1⟩, ⟨1, "GB", 2⟩], [⟨2, "GC", 3⟩]] :
            List (List ParamGroup)).length) ∧
    ((find_param_dupls_outputs false "name"
        [[⟨"a", "A", "T", 1, "", "", "", "", 1⟩,
          ⟨"a", "B", "T", 1, "", "", "", "", 2⟩],
         [⟨"c", "C", "T", 1, "", "", "", "", 3⟩]])[1]? =
      some (some "a",
            [("a", "A", "T", 1, 1), ("a", "B", "T", 1, 2),
             ("c", "C", "T", 1, 3)]) ∧
    (find_group_dupls_outputs false
        [[⟨1, "GA", 1⟩, ⟨1, "GB", 2⟩], [⟨2, "GC", 3⟩]])[1]? =
      some (some (.int 1),
            [(.int 1, .str "GA", 1), (.int 1, .str "GB", 2),
             (.int 2, .str "GC", 3)])) :=
  ⟨by decide, by decide,
   C10_dupldata_accumulates false
     [[⟨"a", "A", "T", 1, "", "", "", "", 1⟩,
       ⟨"a", "B", "T", 1, "", "", "", "", 2⟩],
      [⟨"c", "C", "T", 1, "", "", "", "", 3⟩]]
     [[⟨1, "GA", 1⟩, ⟨1, "GB", 2⟩], [⟨2, "GC", 3⟩]]
     1 1 (by decide) (by decide) (by decide) (by decide)⟩

theorem classifyLine_eq_bad_iff (n : Nat) (line : String) :
    classifyLine n line = .badLine ↔ lineMalformed line = true := by
  unfold classifyLine lineMalformed
  by_cases hstar : ((lineFields line).head?.getD "").data.head?.getD ' ' = '*'
  · have hG : ¬ (lineFields line).head?.getD "" = "GROUP" := by
      intro h
      rw [h] at hstar
      exact absurd hstar (by decide)
    have hP : ¬ (lineFields line).head?.getD "" = "PARAM" := by
      intro h
      rw [h] at hstar
      exact absurd hstar (by decide)
    simp [hstar, hG, hP]
  · by_cases hG : (lineFields line).head?.getD "" = "GROUP"
    · by_cases hlen : 3 ≤ (lineFields line).length
      · have hlt : ¬ (lineFields line).length < 3 := Nat.not_lt.mpr hlen
        cases hint : parseIntField ((lineFields line)[1]?.getD "") with
        | none => simp [hstar, hG, hlen, hlt, hint]
        | some v => simp [hstar, hG, hlen, hlt, hint]
      · have hlt : (lineFields line).length < 3 := Nat.not_le.mp hlen
        simp [hstar, hG, hlen, hlt]
    · by_cases hP : (lineFields line).head?.getD "" = "PARAM"
      · by_cases hlen : 5 ≤ (lineFields line).length
        · have hlt : ¬ (lineFields line).length < 5 := Nat.not_lt.mpr hlen
          cases hgu : guidNormalize ((lineFields line)[1]?.getD "") with
          | none => simp [hstar, hG, hP, hlen, hlt, hgu]
          | some gu =>
            cases hint : parseIntField ((lineFields line)[4]?.getD "") with
            | none => simp [hstar, hG, hP, hlen, hlt, hgu, hint]
            | some gid => simp [hstar, hG, hP, hlen, hlt, hgu, hint]
        · have hlt : (lineFields line).length < 5 := Nat.not_le.mp hlen
          simp [hstar, hG, hP, hlen, hlt]
      · simp [hstar, hG, hP]

theorem except_map_eq_error {ε α β : Type} (f : α → β) (x : Except ε α)
    (e : ε) : x.map f = .error e ↔ x = .error e := by
  cases x <;> simp [Except.map]

theorem except_map_eq_ok {ε α β : Type} (f : α → β) (x : Except ε α) :
    (∃ y, x.map f = .ok y) ↔ ∃ a, x = .ok a := by
  cases x <;> simp [Except.map]

theorem classifyLine_not_bad_not_malformed {n : Nat} {line : String}
    {k : LineKind} (hc : classifyLine n line = k) (hk : k ≠ .badLine) :
    lineMalformed line = false := by
  rcases Bool.eq_false_or_eq_true (lineMalformed line) with hml | hml
  · have hbad := (classifyLine_eq_bad_iff n line).mpr hml
    rw [hc] at hbad
    exact absurd hbad hk
  · exact hml

theorem parseLines_malformed_iff (lines : List String) :
    ∀ n : Nat,
      (∃ m raw, parseLines n lines = .error (.malformedLineError m raw)) ↔
        ∃ l ∈ lines, lineMalformed l = true := by
  induction lines with
  | nil =>
    intro n
    simp [parseLines]
  | cons line rest ih =>
    intro n
    cases hc : classifyLine n line with
    | badLine =>
      have hml := (classifyLine_eq_bad_iff n line).mp hc
      simp only [parseLines, hc]
      constructor
      · intro _
        exact ⟨line, List.mem_cons_self line rest, hml⟩
      · intro _
        exact ⟨n, line, rfl⟩
    | skipLine =>
      have hnm := classifyLine_not_bad_not_malformed hc (by simp)
      simp only [parseLines, hc]
      rw [ih (n+1)]
      simp [List.exists_mem_cons_iff, hnm]
    | groupLine g =>
      have hnm := classifyLine_not_bad_not_malformed hc (by simp)
      simp only [parseLines, hc, except_map_eq_error]
      rw [ih (n+1)]
      simp [List.exists_mem_cons_iff, hnm]
    | paramLine p =>
      have hnm := classifyLine_not_bad_not_malformed hc (by simp)
      simp only [parseLines, hc, except_map_eq_error]
      rw [ih (n+1)]
      simp [List.exists_mem_cons_iff, hnm]

theorem parseLines_ok_iff (lines : List String) :
    ∀ n : Nat, (∃ f, parseLines n lines = .ok f) ↔
      ∀ l ∈ lines, lineMalformed l = false := by
  induction lines with
  | nil =>
    intro n
    simp [parseLines]
  | cons line rest ih =>
    intro n
    cases hc : classifyLine n line with
    | badLine =>
      have hml := (classifyLine_eq_bad_iff n line).mp hc
      simp [parseLines, hc, hml]
    | skipLine =>
      have hnm := classifyLine_not_bad_not_malformed hc (by simp)
      simp only [parseLines, hc]
      rw [ih (n+1)]
      simp [hnm]
    | groupLine g =>
      have hnm := classifyLine_not_bad_not_malformed hc (by simp)
      simp only [parseLines, hc, except_map_eq_ok]
      rw [ih (n+1)]
      simp [hnm]
    | paramLine p =>
      have hnm := classifyLine_not_bad_not_malformed hc (by simp)
      simp only [parseLines, hc, except_map_eq_ok]
      rw [ih (n+1)]
      simp [hnm]

theorem parseLines_ne_decodeError (lines : List String) :
    ∀ (n : Nat) (e : String),
      parseLines n lines ≠ .error (.decodeError e) := by
  induction lines with
  | nil =>
    intro n e
    simp [parseLines]
  | cons line rest ih =>
    intro n e
    cases hc : classifyLine n line with
    | badLine => simp [parseLines, hc]
    | skipLine =>
      simp only [parseLines, hc]
      exact ih (n+1) e
    | groupLine g =>
      simp only [parseLines, hc, ne_eq, except_map_eq_error]
      exact ih (n+1) e
    | paramLine p =>
      simp only [parseLines, hc, ne_eq, except_map_eq_error]
      exact ih (n+1) e

/-- C9 (amended): `parse(bytes, encoding)` fails with `DecodeError` exactly
when the bytes cannot be decoded under the given encoding; it fails with
`MalformedLineError` exactly when, in the decoded text, some data line
fails validation for its record kind — fewer than the minimum required
fields, a non-integer id or group-id field, or (for `PARAM`) a malformed
GUID — and otherwise it returns a File. -/
theorem C9_parse_error_characterization (encoding : String)
    (bytes : List Nat) :
    ((∃ e, parse encoding bytes = .error (.decodeError e)) ↔
      decode encoding bytes = none) ∧
    ((∃ m raw, parse encoding bytes = .error (.malformedLineError m raw)) ↔
      ∃ cs, decode encoding bytes = some cs ∧
        ∃ l ∈ (splitOnChar '\n' cs).map String.mk,
          lineMalformed l = true) ∧
    ((∃ f, parse encoding bytes = .ok f) ↔
      ∃ cs, decode encoding bytes = some cs ∧
        ∀ l ∈ (splitOnChar '\n' cs).map String.mk,
          lineMalformed l = false) := by
  cases hd : decode encoding bytes with
  | none =>
    refine ⟨?_, ?_, ?_⟩
    · simp [parse, hd]
    · simp [parse, hd]
    · simp [parse, hd]
  | some cs =>
    refine ⟨?_, ?_, ?_⟩
    · simp only [parse, hd]
      constructor
      · rintro ⟨e, he⟩
        exact absurd he (parseLines_ne_decodeError _ 1 e)
      · intro h
        simp at h
    · simp only [parse, hd]
      rw [parseLines_malformed_iff _ 1]
      simp
    · simp only [parse, hd]
      rw [parseLines_ok_iff _ 1]
      simp

/-- C9 counterexample: the single data line `GROUP<TAB>x<TAB>Foo`
tokenizes into exactly 3 fields — the minimum field count for a `GROUP`
record — yet `parse` fails with `MalformedLineError` because the id field
`x` is not an integer, so the claim's "MalformedLineError exactly for a
data line that cannot be tokenized into the minimum required field count"
is false. -/
theorem C9_counterexample :
    parse "utf-8" [71, 82, 79, 85, 80, 9, 120, 9, 70, 111, 111] =
      .error (.malformedLineError 1 "GROUP\tx\tFoo") ∧
    (lineFields "GROUP\tx\tFoo").length = 3 := by
  constructor
  · rfl
  · rfl

end Rsparam
